import Mathlib

/-!
Shallow embedding of the queue / playback-session manager of
`src/src/disopy/cogs/queue.py` (the `Song` named tuple, the `Queue` class and
the state-relevant methods of `QueueCog`), together with proofs settling the
frozen claims about it.

Modelling conventions:
* A Python `dict[str, deque[Song]]` is modelled as a total function
  `String → List Song`; a key that is missing from the dict behaves exactly
  like the empty deque that `Queue._check_guild` creates on first access, so
  the total-function view is observationally faithful.
* `interaction.guild` is modelled by an `Option String` (the guild id, or
  `none` when the interaction carries no guild), which is what
  `Queue._check_guild` extracts.
* Python exceptions are modelled with `Except PyExc`: a `.error` value is an
  exception that propagates out of the modelled function.
* External collaborators (media cache, Subsonic downloads, the Discord voice
  client) are modelled by an `Env` record of boolean oracles saying which of
  the external calls succeed.
-/

namespace Disopy

/-- The `Song` named tuple of `queue.py` (lines 25-38): id, title, artist and
duration in seconds.  Python `NamedTuple` equality is componentwise. -/
structure Song where
  id : String
  title : String
  artist : String
  duration : Int
deriving DecidableEq, Repr

/-- Python exceptions that the modelled code can raise or be handed:
`IndexError` (from `deque.popleft` on an empty deque), `TypeError` (from
subscripting a non-subscriptable object), `requests.exceptions.HTTPError`
(from a failed download), and an opaque exception handed to the playback
callback by discord.py. -/
inductive PyExc where
  | indexError
  | typeError
  | httpError
  | other
deriving DecidableEq, Repr

/-- Update one guild's deque in the per-guild dictionary
(`self.queue[id] = ...`). -/
def setQ (qs : String → List Song) (id : String) (v : List Song) :
    String → List Song :=
  fun k => if k = id then v else qs k

/-- `Queue.get` (lines 72-86): the guild's deque, or `[]` when the
interaction has no guild. -/
def queueGet (qs : String → List Song) (gid : Option String) : List Song :=
  match gid with
  | none => []
  | some id => qs id

/-- `Queue.pop` (lines 88-102): returns `None` when the interaction has no
guild; otherwise `deque.popleft()`, which raises `IndexError` on an empty
deque. -/
def queuePop (qs : String → List Song) (gid : Option String) :
    Except PyExc (Option Song × (String → List Song)) :=
  match gid with
  | none => .ok (none, qs)
  | some id =>
    match qs id with
    | [] => .error .indexError
    | s :: rest => .ok (some s, setQ qs id rest)

/-- `Queue.append` (lines 104-116): append at the tail of the guild's deque;
no-op when the interaction has no guild. -/
def queueAppend (qs : String → List Song) (gid : Option String) (song : Song) :
    String → List Song :=
  match gid with
  | none => qs
  | some id => setQ qs id (qs id ++ [song])

/-- `Queue.length` (lines 118-133): length of the guild's deque, `0` when the
interaction has no guild. -/
def queueLength (qs : String → List Song) (gid : Option String) : Nat :=
  match gid with
  | none => 0
  | some id => (qs id).length

/-- `Queue.clear` (lines 162-172): replace the guild's deque by a fresh empty
one; no-op when the interaction has no guild. -/
def queueClear (qs : String → List Song) (gid : Option String) :
    String → List Song :=
  match gid with
  | none => qs
  | some id => setQ qs id []

/-- The per-cog mutable state of `QueueCog.__init__` (lines 192-196): the
per-guild queue dictionary, and the cog-wide `now_playing`, `loop`
(0 = no loop, 1 = loop queue, 2 = loop track) and `skip_next_autoplay`
attributes.  Note that only `queue` is keyed by guild; the other three fields
are single attributes of the one cog instance. -/
structure CogState where
  queue : String → List Song
  now_playing : Option Song
  loop : Nat
  skip_next_autoplay : Bool

/-- Oracles for the external collaborators used by `play_queue`:
whether the media cache holds a song (`song_path.is_file()`), whether the
primary `/download` call succeeds (raising `HTTPError` otherwise), whether the
`/stream` fallback succeeds, whether `interaction.guild.voice_client` is
available, and whether `voice_client.source` is available after `play`. -/
structure Env where
  cacheHit : String → Bool
  downloadOk : String → Bool
  streamOk : String → Bool
  hasVoiceClient : Bool
  sourceAvailable : Bool

/-- An environment in which every external call succeeds. -/
def fullEnv : Env :=
  { cacheHit := fun _ => true
    downloadOk := fun _ => true
    streamOk := fun _ => true
    hasVoiceClient := true
    sourceAvailable := true }

/-- Lines 258-259 of `play_queue`: `if self.loop == 1:` re-append the chosen
song at the tail.  When `loop == 1` the empty-queue guard above the call
guarantees the pop returned a song, so the missing-song case cannot occur. -/
def requeueIfLooping (gid : Option String) (lp : Nat)
    (q1 : String → List Song) (songOpt : Option Song) : String → List Song :=
  if lp = 1 then
    match songOpt with
    | some s => queueAppend q1 gid s
    | none => q1
  else q1

/-- Lines 285-305 of `play_queue`: missing guild or voice client logs and
returns; otherwise `voice_client.play` hands the media to the sink
(lines 295-298); when the source is unavailable the method returns before
setting `now_playing` (lines 300-302); otherwise `now_playing` is set to the
chosen song (line 304).  The returned `Option Song` is the song handed to the
sink, `none` when no handoff happened. -/
def handoffToSink (env : Env) (gid : Option String) (st : CogState)
    (q2 : String → List Song) (song : Song) :
    Except PyExc (CogState × Option Song) :=
  match gid with
  | none => .ok ({ st with queue := q2 }, none)
  | some _ =>
    if env.hasVoiceClient then
      if env.sourceAvailable then
        .ok ({ st with queue := q2, now_playing := some song }, some song)
      else .ok ({ st with queue := q2 }, some song)
    else .ok ({ st with queue := q2 }, none)

/-- Lines 267-305 of `play_queue`: on cache miss the song is downloaded, the
`HTTPError` of the primary `/download` call being caught and retried through
`/stream` (lines 273-281); a fallback failure is uncaught and propagates. -/
def startPlayback (env : Env) (gid : Option String) (st : CogState)
    (q2 : String → List Song) (song : Song) :
    Except PyExc (CogState × Option Song) :=
  if env.cacheHit song.id then handoffToSink env gid st q2 song
  else if env.downloadOk song.id then handoffToSink env gid st q2 song
  else if env.streamOk song.id then handoffToSink env gid st q2 song
  else .error .httpError

/-- `QueueCog.play_queue` (lines 242-305), the advance step.  Returns the new
cog state together with the song handed to `voice_client.play` (`none` when no
sink handoff happened), or the exception that propagated out of the method:
* a non-`None` `exception` argument is re-raised (lines 250-251);
* empty queue with `loop < 2` logs and returns (lines 253-255);
* the next song is popped, or is `now_playing` under track loop (line 257),
  and is re-appended under queue loop via `requeueIfLooping`;
* a `None` song logs and returns (lines 261-263);
* otherwise `startPlayback` resolves the media and hands off to the sink. -/
def playQueue (env : Env) (gid : Option String) (exc : Option PyExc)
    (st : CogState) : Except PyExc (CogState × Option Song) :=
  match exc with
  | some e => .error e
  | none =>
    if queueLength st.queue gid = 0 ∧ st.loop < 2 then
      .ok (st, none)
    else
      match (if st.loop < 2 then queuePop st.queue gid
             else .ok (st.now_playing, st.queue)) with
      | .error e => .error e
      | .ok (songOpt, q1) =>
        match songOpt with
        | none =>
          .ok ({ st with queue := requeueIfLooping gid st.loop q1 none },
               none)
        | some song =>
          startPlayback env gid st
            (requeueIfLooping gid st.loop q1 (some song)) song

/-- `QueueCog.play_next_callback` (lines 228-240): consume the one-shot
`skip_next_autoplay` flag and do nothing, or delegate to `play_queue`. -/
def playNextCallback (env : Env) (gid : Option String) (exc : Option PyExc)
    (st : CogState) : Except PyExc (CogState × Option Song) :=
  if st.skip_next_autoplay then
    .ok ({ st with skip_next_autoplay := false }, none)
  else
    playQueue env gid exc st

/-- `QueueCog.stop` (lines 457-477).  `vcOk` models the checks performed by
`get_voice_client` with `connect=False` (lines 198-226), which mutate nothing;
`isPlaying` models `voice_client.is_playing()`.  Returns the new state and
whether `voice_client.stop()` was called. -/
def stopCommand (vcOk isPlaying : Bool) (st : CogState) : CogState × Bool :=
  if !vcOk then (st, false)
  else if !isPlaying then (st, false)
  else ({ st with skip_next_autoplay := true, now_playing := none }, true)

/-- `QueueCog.clear` (lines 517-529): after the non-mutating voice-client
checks, empty the guild's queue. -/
def clearCommand (vcOk : Bool) (gid : Option String) (st : CogState) :
    CogState :=
  if !vcOk then st
  else { st with queue := queueClear st.queue gid }

/-- `QueueCog.loop_command` (lines 590-617) with `what` the chosen loop target
(1 = queue, 2 = track).  Returns the new state together with the user-error
message sent by `send_error` (`none` when no user error was reported), or the
exception that propagated:
* empty queue with `what ≠ 2` is rejected (lines 601-603);
* `what = 2` with nothing playing is rejected (lines 604-606);
* `what = loop` toggles looping off (lines 608-611);
* the condition on line 613 evaluates `self.now_playing != self.queue[-1]`
  once `what == 1` and `now_playing is not None` hold; `self.queue` is the
  `Queue` wrapper object, which defines no `__getitem__`, so the subscript
  raises `TypeError`;
* otherwise `loop` is set to `what` (line 616). -/
def loopCommand (vcOk : Bool) (gid : Option String) (what : Nat)
    (st : CogState) : Except PyExc (CogState × Option String) :=
  if !vcOk then .ok (st, none)
  else if queueLength st.queue gid = 0 ∧ what ≠ 2 then
    .ok (st, some "The queue is empty")
  else if st.now_playing = none ∧ what = 2 then
    .ok (st, some "Nothing is playing")
  else if what = st.loop then
    .ok ({ st with loop := 0 }, none)
  else if what = 1 ∧ st.now_playing ≠ none then
    .error .typeError
  else
    .ok ({ st with loop := what }, none)

/-- One advance step on the cog state: the state after `play_queue`, the
state being unchanged when the call raised. -/
def stepState (env : Env) (gid : Option String) (st : CogState) : CogState :=
  match playQueue env gid none st with
  | .ok (st', _) => st'
  | .error _ => st

/-- The cog state after `n` advance steps. -/
def advanceIter (env : Env) (gid : Option String) : Nat → CogState → CogState
  | 0, st => st
  | n + 1, st => stepState env gid (advanceIter env gid n st)

/-- The session state a guild observes: the `queue` slash command
(lines 652-658) reports `self.now_playing` and `self.loop` — cog-wide
attributes read independently of which guild's interaction triggered the
command — and `self.skip_next_autoplay` likewise is a single cog-wide flag. -/
def observedSession (st : CogState) (_g : String) : Option Song × Nat × Bool :=
  (st.now_playing, st.loop, st.skip_next_autoplay)

theorem setQ_same (f : String → List Song) (i : String) (x : List Song) :
    setQ f i x i = x := by
  simp [setQ]

theorem setQ_other (f : String → List Song) (i k : String) (x : List Song)
    (h : k ≠ i) : setQ f i x k = f k := by
  simp [setQ, h]

theorem setQ_setQ (f : String → List Song) (i : String) (x y : List Song) :
    setQ (setQ f i x) i y = setQ f i y := by
  funext k
  by_cases h : k = i <;> simp [setQ, h]

/-- A successful advance on a non-empty queue outside track loop: the head is
popped, handed to the sink and promoted to `now_playing`; under queue loop it
is also re-appended at the tail. -/
theorem playQueue_cons (env : Env) (g : String) (st : CogState) (s : Song)
    (rest : List Song) (hq : st.queue g = s :: rest) (hlt : st.loop < 2)
    (hc : env.cacheHit s.id = true) (hvc : env.hasVoiceClient = true)
    (hsrc : env.sourceAvailable = true) :
    playQueue env (some g) none st =
      .ok ({ st with
              queue := setQ st.queue g
                (if st.loop = 1 then rest ++ [s] else rest),
              now_playing := some s }, some s) := by
  by_cases hl1 : st.loop = 1 <;>
    simp [playQueue, startPlayback, handoffToSink, requeueIfLooping,
      queueLength, queuePop, queueAppend, hq, hlt, hc, hvc, hsrc, hl1,
      setQ_setQ, setQ_same]

/-- Under track loop with a song playing and its media resolvable, an advance
leaves the whole cog state unchanged and replays `now_playing`. -/
theorem playQueue_track (env : Env) (g : String) (s : Song) (st : CogState)
    (hl : st.loop = 2) (hnp : st.now_playing = some s)
    (hc : env.cacheHit s.id = true) (hvc : env.hasVoiceClient = true) :
    playQueue env (some g) none st = .ok (st, some s) := by
  obtain ⟨q, np, lp, sk⟩ := st
  simp only at hl hnp
  subst hl hnp
  by_cases hsrc : env.sourceAvailable <;>
    simp [playQueue, startPlayback, handoffToSink, requeueIfLooping,
      queueLength, hc, hvc, hsrc]

theorem handoffToSink_preserves_now_playing (env : Env) (gid : Option String)
    (st st' : CogState) (q2 : String → List Song) (song : Song)
    (h : Option Song) (hvc : env.hasVoiceClient = false)
    (hok : handoffToSink env gid st q2 song = .ok (st', h)) :
    st'.now_playing = st.now_playing := by
  unfold handoffToSink at hok
  split at hok
  · obtain ⟨h1, -⟩ := Prod.mk.inj (Except.ok.inj hok)
    subst h1; rfl
  · rw [hvc] at hok
    simp only [Bool.false_eq_true, if_false] at hok
    obtain ⟨h1, -⟩ := Prod.mk.inj (Except.ok.inj hok)
    subst h1; rfl

theorem startPlayback_preserves_now_playing (env : Env) (gid : Option String)
    (st st' : CogState) (q2 : String → List Song) (song : Song)
    (h : Option Song) (hvc : env.hasVoiceClient = false)
    (hok : startPlayback env gid st q2 song = .ok (st', h)) :
    st'.now_playing = st.now_playing := by
  unfold startPlayback at hok
  split at hok
  · exact handoffToSink_preserves_now_playing env gid st st' q2 song h hvc hok
  · split at hok
    · exact handoffToSink_preserves_now_playing env gid st st' q2 song h hvc
        hok
    · split at hok
      · exact handoffToSink_preserves_now_playing env gid st st' q2 song h
          hvc hok
      · exact absurd hok (by simp)

/-! Concrete sample data used by counterexamples and witnesses. -/

def songA : Song := ⟨"a1", "Alpha", "Artist", 150⟩

def songB : Song := ⟨"b1", "Beta", "Artist", 200⟩

def songC : Song := ⟨"c1", "Gamma", "Artist", 90⟩

/-- When no voice client is available, any advance that returns normally
leaves `now_playing` unchanged. -/
theorem playQueue_preserves_now_playing (env : Env) (gid : Option String)
    (st st' : CogState) (h : Option Song)
    (hvc : env.hasVoiceClient = false)
    (hok : playQueue env gid none st = .ok (st', h)) :
    st'.now_playing = st.now_playing := by
  unfold playQueue at hok
  dsimp only at hok
  split at hok
  · obtain ⟨h1, -⟩ := Prod.mk.inj (Except.ok.inj hok)
    subst h1; rfl
  · split at hok
    · exact absurd hok (by simp)
    · split at hok
      · obtain ⟨h1, -⟩ := Prod.mk.inj (Except.ok.inj hok)
        subst h1; rfl
      · exact startPlayback_preserves_now_playing env gid st st' _ _ h hvc
          hok

/-- C2: for every guild whose deque is empty, `Queue.pop` raises `IndexError`
from `deque.popleft()` instead of returning an empty result, contradicting its
own docstring ("The next song in the queue or None if the action failed"). -/
theorem c2_pop_empty_raises (qs : String → List Song) (g : String)
    (h : qs g = []) : queuePop qs (some g) = .error .indexError := by
  simp [queuePop, h]

theorem c2_pop_empty_raises_witness :
    queuePop (fun _ => ([] : List Song)) (some "g") = .error .indexError :=
  c2_pop_empty_raises (fun _ => []) "g" rfl

/-- C4 counterexample: an advance on an empty queue with `loop = NONE` while
`songA` is recorded as playing returns with no sink handoff but leaves
`now_playing` still set to `songA`, not empty. -/
theorem c4_counterexample :
    playQueue fullEnv (some "g") none ⟨fun _ => [], some songA, 0, false⟩ =
        .ok (⟨fun _ => [], some songA, 0, false⟩, none) ∧
      (⟨fun _ => [], some songA, 0, false⟩ : CogState).now_playing ≠ none :=
  ⟨rfl, by decide⟩

/-- C4 amended: for every guild whose queue is empty and whose loop mode is
not TRACK, an advance returns immediately with no sink handoff and the whole
cog state — including `now_playing` — unchanged (rather than setting
`now_playing` to empty). -/
theorem c4_advance_empty_queue (env : Env) (gid : Option String)
    (st : CogState) (h0 : queueLength st.queue gid = 0) (h1 : st.loop < 2) :
    playQueue env gid none st = .ok (st, none) := by
  simp [playQueue, h0, h1]

theorem c4_advance_empty_queue_witness :
    playQueue fullEnv (some "g") none ⟨fun _ => [], none, 1, false⟩ =
      .ok (⟨fun _ => [], none, 1, false⟩, none) :=
  c4_advance_empty_queue fullEnv (some "g") ⟨fun _ => [], none, 1, false⟩ rfl
    (by decide)

/-- C5: entering QUEUE loop mode while a track is playing does not append the
playing track and does not complete: line 613 evaluates
`self.now_playing != self.queue[-1]` where `self.queue` is the `Queue` wrapper
object, which is not subscriptable, so the command raises `TypeError`. -/
theorem c5_loop_queue_raises :
    loopCommand true (some "g") 1
        ⟨setQ (fun _ => []) "g" [songB], some songA, 0, false⟩ =
      .error .typeError := rfl

/-- C6 counterexample: with an empty queue and a track currently playing, the
request to enter QUEUE loop mode is still rejected as the user error "The
queue is empty", although the claim says it must be allowed. -/
theorem c6_counterexample :
    loopCommand true (some "g") 1 ⟨fun _ => [], some songA, 0, false⟩ =
        .ok (⟨fun _ => [], some songA, 0, false⟩, some "The queue is empty") ∧
      (⟨fun _ => [], some songA, 0, false⟩ : CogState).now_playing ≠ none :=
  ⟨rfl, by decide⟩

/-- C6 amended: a request to enter QUEUE loop mode is rejected as the user
error "The queue is empty" exactly when the guild's queue is empty — whether
or not a track is currently playing. -/
theorem c6_loop_queue_rejection (g : String) (st : CogState) :
    loopCommand true (some g) 1 st = .ok (st, some "The queue is empty") ↔
      st.queue g = [] := by
  constructor
  · intro h
    by_cases hne : st.queue g = []
    · exact hne
    · exfalso
      simp only [loopCommand, queueLength, Bool.not_true] at h
      rw [if_neg (by simp), if_neg (by simp [hne]), if_neg (by simp)] at h
      split at h
      · simp at h
      · split at h <;> simp at h
  · intro h
    simp [loopCommand, queueLength, h]

/-- C10: the clear command empties the guild's queue and leaves `now_playing`,
`loop` and `skip_next_autoplay` unchanged — a playing song keeps playing and
the loop setting survives. -/
theorem c10_clear_frame (g : String) (st : CogState) :
    (clearCommand true (some g) st).queue g = [] ∧
    (clearCommand true (some g) st).now_playing = st.now_playing ∧
    (clearCommand true (some g) st).loop = st.loop ∧
    (clearCommand true (some g) st).skip_next_autoplay =
      st.skip_next_autoplay := by
  refine ⟨?_, rfl, rfl, rfl⟩
  simp [clearCommand, queueClear, setQ_same]

/-- C7: under TRACK loop with a song playing whose media resolves, every
advance replays exactly that song and leaves the whole cog state — in
particular `now_playing` and the queue — unchanged, for any number of
repeated advances with no new appends. -/
theorem c7_track_loop_replays (env : Env) (g : String) (s : Song)
    (st : CogState) (hl : st.loop = 2) (hnp : st.now_playing = some s)
    (hc : env.cacheHit s.id = true) (hvc : env.hasVoiceClient = true) :
    playQueue env (some g) none st = .ok (st, some s) ∧
      ∀ n : Nat, advanceIter env (some g) n st = st := by
  have hstep := playQueue_track env g s st hl hnp hc hvc
  refine ⟨hstep, ?_⟩
  intro n
  induction n with
  | zero => rfl
  | succ n ih => simp [advanceIter, ih, stepState, hstep]

theorem c7_track_loop_replays_witness :
    playQueue fullEnv (some "g") none ⟨fun _ => [], some songC, 2, false⟩ =
        .ok (⟨fun _ => [], some songC, 2, false⟩, some songC) ∧
      advanceIter fullEnv (some "g") 4 ⟨fun _ => [], some songC, 2, false⟩ =
        ⟨fun _ => [], some songC, 2, false⟩ := by
  obtain ⟨h1, h2⟩ := c7_track_loop_replays fullEnv "g" songC
    ⟨fun _ => [], some songC, 2, false⟩ rfl rfl rfl rfl
  exact ⟨h1, h2 4⟩

/-- C9: the stop command sets the one-shot `skip_next_autoplay` flag and stops
the sink; the first completion callback after the stop performs no
auto-advance and only clears the flag; and the flag is consumed at most once —
a second completion callback auto-advances, popping the queue head and handing
it to the sink. -/
theorem c9_stop_skip_oneshot (env : Env) (g : String) (s : Song)
    (rest : List Song) (st : CogState) (hq : st.queue g = s :: rest)
    (hl : st.loop = 0) (hc : env.cacheHit s.id = true)
    (hvc : env.hasVoiceClient = true) (hsrc : env.sourceAvailable = true) :
    (stopCommand true true st).2 = true ∧
    (stopCommand true true st).1.skip_next_autoplay = true ∧
    playNextCallback env (some g) none (stopCommand true true st).1 =
      .ok ({ (stopCommand true true st).1 with skip_next_autoplay := false },
           none) ∧
    playNextCallback env (some g) none
        { (stopCommand true true st).1 with skip_next_autoplay := false } =
      .ok ({ st with
             queue := setQ st.queue g rest
             now_playing := some s
             skip_next_autoplay := false }, some s) := by
  refine ⟨rfl, rfl, rfl, ?_⟩
  have hstep := playQueue_cons env g
    { (stopCommand true true st).1 with skip_next_autoplay := false } s rest
    hq (by simp [stopCommand, hl]) hc hvc hsrc
  simp only [stopCommand, Bool.not_true, if_false] at hstep ⊢
  simp only [playNextCallback, Bool.false_eq_true, if_false] at hstep ⊢
  simp [hl] at hstep ⊢
  exact hstep

theorem c9_stop_skip_oneshot_witness :
    (stopCommand true true ⟨fun _ => [songB], some songA, 0, false⟩).2 =
        true ∧
    (stopCommand true true
        ⟨fun _ => [songB], some songA, 0, false⟩).1.skip_next_autoplay =
      true ∧
    playNextCallback fullEnv (some "g") none
        (stopCommand true true ⟨fun _ => [songB], some songA, 0, false⟩).1 =
      .ok ({ (stopCommand true true
              ⟨fun _ => [songB], some songA, 0, false⟩).1 with
             skip_next_autoplay := false }, none) ∧
    playNextCallback fullEnv (some "g") none
        { (stopCommand true true
            ⟨fun _ => [songB], some songA, 0, false⟩).1 with
          skip_next_autoplay := false } =
      .ok ({ (⟨fun _ => [songB], some songA, 0, false⟩ : CogState) with
             queue := setQ (fun _ => [songB]) "g" []
             now_playing := some songB
             skip_next_autoplay := false },
           some songB) :=
  c9_stop_skip_oneshot fullEnv "g" songB []
    ⟨fun _ => [songB], some songA, 0, false⟩ rfl rfl rfl rfl rfl

/-- An environment in which the song is not cached and both the primary
download and the stream fallback fail. -/
def downFailEnv : Env :=
  ⟨fun _ => false, fun _ => false, fun _ => false, true, true⟩

/-- C3 counterexample: with `songA` absent from the cache and both the primary
download and the `/stream` fallback failing, the advance raises `HTTPError`
past the orchestrator boundary instead of containing the failure. -/
theorem c3_counterexample :
    playQueue downFailEnv (some "g") none
        ⟨setQ (fun _ => []) "g" [songA], none, 0, false⟩ =
      .error .httpError := rfl

/-- C3 amended: an exception handed in by the sink is re-raised unchanged out
of `play_queue`; only the primary download's `HTTPError` is caught (retried
through `/stream`), a fallback failure raising `HTTPError` past the
orchestrator boundary; and an advance that aborts without raising because no
voice client is available leaves `now_playing` at its previous value rather
than unset. -/
theorem c3_failure_containment (env : Env) (g : String) (st : CogState)
    (e : PyExc) (s : Song) (rest : List Song) (hq : st.queue g = s :: rest)
    (hl : st.loop = 0) (hc : env.cacheHit s.id = false)
    (hd : env.downloadOk s.id = false) (hs : env.streamOk s.id = false) :
    playQueue env (some g) (some e) st = .error e ∧
    playQueue env (some g) none st = .error .httpError ∧
    ∀ (env2 : Env) (gid2 : Option String) (st2 st' : CogState)
      (h : Option Song), env2.hasVoiceClient = false →
        playQueue env2 gid2 none st2 = .ok (st', h) →
        st'.now_playing = st2.now_playing := by
  refine ⟨rfl, ?_, ?_⟩
  · simp [playQueue, startPlayback, queueLength, queuePop, requeueIfLooping,
      hq, hl, hc, hd, hs]
  · intro env2 gid2 st2 st' h hvc hok
    exact playQueue_preserves_now_playing env2 gid2 st2 st' h hvc hok

theorem c3_failure_containment_witness :
    playQueue downFailEnv (some "g") (some .other)
        ⟨setQ (fun _ => []) "g" [songA], none, 0, false⟩ = .error .other ∧
    playQueue downFailEnv (some "g") none
        ⟨setQ (fun _ => []) "g" [songA], none, 0, false⟩ =
      .error .httpError := by
  obtain ⟨h1, h2, -⟩ := c3_failure_containment downFailEnv "g"
    ⟨setQ (fun _ => []) "g" [songA], none, 0, false⟩ .other songA []
    (by simp [setQ]) rfl rfl rfl rfl
  exact ⟨h1, h2⟩

theorem requeueIfLooping_other (g1 g2 : String) (hne : g2 ≠ g1) (lp : Nat)
    (q1 : String → List Song) (songOpt : Option Song) :
    requeueIfLooping (some g1) lp q1 songOpt g2 = q1 g2 := by
  unfold requeueIfLooping
  split
  · cases songOpt with
    | none => rfl
    | some s => simp [queueAppend, setQ_other _ _ _ _ hne]
  · rfl

theorem handoffToSink_queue (env : Env) (gid : Option String)
    (st st' : CogState) (q2 : String → List Song) (song : Song)
    (h : Option Song)
    (hok : handoffToSink env gid st q2 song = .ok (st', h)) :
    st'.queue = q2 := by
  unfold handoffToSink at hok
  split at hok
  · obtain ⟨h1, -⟩ := Prod.mk.inj (Except.ok.inj hok)
    subst h1; rfl
  · split at hok
    · split at hok <;>
      · obtain ⟨h1, -⟩ := Prod.mk.inj (Except.ok.inj hok)
        subst h1; rfl
    · obtain ⟨h1, -⟩ := Prod.mk.inj (Except.ok.inj hok)
      subst h1; rfl

theorem startPlayback_queue (env : Env) (gid : Option String)
    (st st' : CogState) (q2 : String → List Song) (song : Song)
    (h : Option Song)
    (hok : startPlayback env gid st q2 song = .ok (st', h)) :
    st'.queue = q2 := by
  unfold startPlayback at hok
  split at hok
  · exact handoffToSink_queue env gid st st' q2 song h hok
  · split at hok
    · exact handoffToSink_queue env gid st st' q2 song h hok
    · split at hok
      · exact handoffToSink_queue env gid st st' q2 song h hok
      · exact absurd hok (by simp)

/-- Any advance performed for guild `g1` leaves every other guild's queue
unchanged. -/
theorem playQueue_queue_other (env : Env) (g1 g2 : String) (hne : g2 ≠ g1)
    (exc : Option PyExc) (st st' : CogState) (h : Option Song)
    (hok : playQueue env (some g1) exc st = .ok (st', h)) :
    st'.queue g2 = st.queue g2 := by
  cases exc with
  | some e => exact absurd hok (by simp [playQueue])
  | none =>
    unfold playQueue at hok
    dsimp only at hok
    split at hok
    · obtain ⟨h1, -⟩ := Prod.mk.inj (Except.ok.inj hok)
      subst h1; rfl
    · split at hok
      · exact absurd hok (by simp)
      · rename_i res songOpt q1 heq
        have hq1 : q1 g2 = st.queue g2 := by
          split at heq
          · unfold queuePop at heq
            dsimp only at heq
            rcases hql : st.queue g1 with - | ⟨s', rest⟩ <;>
              rw [hql] at heq <;> dsimp only at heq
            · exact absurd heq (by simp)
            · obtain ⟨-, h2⟩ := Prod.mk.inj (Except.ok.inj heq)
              rw [← h2]
              exact setQ_other _ _ _ _ hne
          · obtain ⟨-, h2⟩ := Prod.mk.inj (Except.ok.inj heq)
            rw [← h2]
        split at hok
        · obtain ⟨h1, -⟩ := Prod.mk.inj (Except.ok.inj hok)
          subst h1
          show requeueIfLooping (some g1) st.loop q1 none g2 = st.queue g2
          rw [requeueIfLooping_other g1 g2 hne, hq1]
        · rename_i song
          have := startPlayback_queue env (some g1) st st'
            (requeueIfLooping (some g1) st.loop q1 (some song)) song h hok
          rw [this, requeueIfLooping_other g1 g2 hne, hq1]

/-- C1 counterexample: an advance performed for guild `g1` promotes a song to
`now_playing`, and guild `g2` observes its session state change, because the
cog holds a single `now_playing`/`loop`/`skip_next_autoplay` for all
guilds. -/
theorem c1_counterexample :
    ∃ (st' : CogState) (h : Option Song),
      playQueue fullEnv (some "g1") none
          ⟨setQ (fun _ => []) "g1" [songA], none, 0, false⟩ =
        .ok (st', h) ∧
        observedSession st' "g2" ≠
          observedSession ⟨setQ (fun _ => []) "g1" [songA], none, 0, false⟩
            "g2" := by
  refine ⟨_, _, rfl, ?_⟩
  decide

/-- C1 amended: per-guild queues are disjoint — queue operations and advances
keyed by one guild leave every other guild's queue unchanged — but the session
state is a single cog-wide record, so a session mutation made on behalf of any
one guild (here the stop command) is observed identically by every guild. -/
theorem c1_tenant_isolation (g1 g2 : String) (hne : g2 ≠ g1) (st : CogState)
    (s : Song) :
    queueAppend st.queue (some g1) s g2 = st.queue g2 ∧
    queueClear st.queue (some g1) g2 = st.queue g2 ∧
    (∀ r, queuePop st.queue (some g1) = .ok r → r.2 g2 = st.queue g2) ∧
    (∀ (env : Env) (exc : Option PyExc) (st' : CogState) (h : Option Song),
      playQueue env (some g1) exc st = .ok (st', h) →
        st'.queue g2 = st.queue g2) ∧
    (∀ g3 : String, observedSession (stopCommand true true st).1 g3 =
      (none, st.loop, true)) := by
  refine ⟨?_, ?_, ?_, ?_, ?_⟩
  · simp [queueAppend, setQ_other _ _ _ _ hne]
  · simp [queueClear, setQ_other _ _ _ _ hne]
  · intro r hr
    unfold queuePop at hr
    dsimp only at hr
    rcases hql : st.queue g1 with - | ⟨s', rest⟩ <;>
      rw [hql] at hr <;> dsimp only at hr
    · exact absurd hr (by simp)
    · rw [← Except.ok.inj hr]
      exact setQ_other _ _ _ _ hne
  · intro env exc st' h hok
    exact playQueue_queue_other env g1 g2 hne exc st st' h hok
  · intro g3
    rfl

theorem c1_tenant_isolation_witness :
    queueAppend (setQ (fun _ => []) "g1" [songA]) (some "g1") songB "g2" =
        setQ (fun _ => []) "g1" [songA] "g2" ∧
      observedSession
          (stopCommand true true
            ⟨setQ (fun _ => []) "g1" [songA], some songA, 0, false⟩).1
          "g2" =
        (none, 0, true) := by
  obtain ⟨h1, -, -, -, h5⟩ := c1_tenant_isolation "g1" "g2" (by decide)
    ⟨setQ (fun _ => []) "g1" [songA], some songA, 0, false⟩ songB
  exact ⟨h1, h5 "g2"⟩

/-- A guild state under queue loop whose queue holds `[a, b, c]`. -/
def qloopStart (a b c : Song) : CogState :=
  ⟨setQ (fun _ => []) "g" [a, b, c], none, 1, false⟩

/-- The `n`-th left rotation of `[a, b, c]`. -/
def rot3 (a b c : Song) (n : Nat) : List Song :=
  match n % 3 with
  | 0 => [a, b, c]
  | 1 => [b, c, a]
  | _ => [c, a, b]

/-- One advance step under queue loop, in the all-successful environment:
pop the head, re-append it at the tail, promote it to `now_playing`. -/
theorem stepState_rotate (st : CogState) (x : Song) (rest : List Song)
    (hq : st.queue "g" = x :: rest) (hl : st.loop = 1) :
    stepState fullEnv (some "g") st =
      { st with
        queue := setQ st.queue "g" (rest ++ [x])
        now_playing := some x } := by
  have hstep := playQueue_cons fullEnv "g" st x rest hq (by omega) rfl rfl rfl
  rw [hl] at hstep
  simp only [if_pos rfl] at hstep
  simp [stepState, hstep, hl]

theorem qloop_invariant (a b c : Song) (n : Nat) :
    (advanceIter fullEnv (some "g") n (qloopStart a b c)).queue "g" =
      rot3 a b c n ∧
    (advanceIter fullEnv (some "g") n (qloopStart a b c)).loop = 1 := by
  induction n with
  | zero => exact ⟨rfl, rfl⟩
  | succ n ih =>
    obtain ⟨ihq, ihl⟩ := ih
    rcases (by omega : n % 3 = 0 ∨ n % 3 = 1 ∨ n % 3 = 2) with h3 | h3 | h3
    · have hq : (advanceIter fullEnv (some "g") n (qloopStart a b c)).queue
          "g" = a :: [b, c] := by rw [ihq]; simp [rot3, h3]
      have hmod : (n + 1) % 3 = 1 := by omega
      simp only [advanceIter]
      rw [stepState_rotate _ a [b, c] hq ihl]
      exact ⟨by simp [setQ_same, rot3, hmod], ihl⟩
    · have hq : (advanceIter fullEnv (some "g") n (qloopStart a b c)).queue
          "g" = b :: [c, a] := by rw [ihq]; simp [rot3, h3]
      have hmod : (n + 1) % 3 = 2 := by omega
      simp only [advanceIter]
      rw [stepState_rotate _ b [c, a] hq ihl]
      exact ⟨by simp [setQ_same, rot3, hmod], ihl⟩
    · have hq : (advanceIter fullEnv (some "g") n (qloopStart a b c)).queue
          "g" = c :: [a, b] := by rw [ihq]; simp [rot3, h3]
      have hmod : (n + 1) % 3 = 0 := by omega
      simp only [advanceIter]
      rw [stepState_rotate _ c [a, b] hq ihl]
      exact ⟨by simp [setQ_same, rot3, hmod], ihl⟩

/-- C8: under QUEUE loop starting from queue `[a, b, c]` with no new appends,
each successful advance pops the head, hands it to the sink, and re-appends
it at the tail: after `n` advances the queue is the `n`-th left rotation of
`[a, b, c]` — so its length is constantly 3 — and the `(n + 1)`-st advance
hands off `[a, b, c][n % 3]`, giving the rotating playback sequence
a, b, c, a, b, c, ... -/
theorem c8_queue_loop_rotation (a b c : Song) (n : Nat) :
    (advanceIter fullEnv (some "g") n (qloopStart a b c)).queue "g" =
      rot3 a b c n ∧
    ((advanceIter fullEnv (some "g") n (qloopStart a b c)).queue "g").length
      = 3 ∧
    playQueue fullEnv (some "g") none
        (advanceIter fullEnv (some "g") n (qloopStart a b c)) =
      .ok (advanceIter fullEnv (some "g") (n + 1) (qloopStart a b c),
           some ([a, b, c].getD (n % 3) a)) := by
  obtain ⟨ihq, ihl⟩ := qloop_invariant a b c n
  refine ⟨ihq, ?_, ?_⟩
  · rw [ihq]
    rcases (by omega : n % 3 = 0 ∨ n % 3 = 1 ∨ n % 3 = 2) with h3 | h3 | h3 <;>
      simp [rot3, h3]
  · rcases (by omega : n % 3 = 0 ∨ n % 3 = 1 ∨ n % 3 = 2) with h3 | h3 | h3
    · have hqx : (advanceIter fullEnv (some "g") n (qloopStart a b c)).queue
          "g" = a :: [b, c] := by rw [ihq]; simp [rot3, h3]
      have hstep := playQueue_cons fullEnv "g" _ a [b, c] hqx (by omega) rfl
        rfl rfl
      rw [hstep]
      simp only [advanceIter]
      rw [stepState_rotate _ a [b, c] hqx ihl]
      simp [ihl, h3]
    · have hqx : (advanceIter fullEnv (some "g") n (qloopStart a b c)).queue
          "g" = b :: [c, a] := by rw [ihq]; simp [rot3, h3]
      have hstep := playQueue_cons fullEnv "g" _ b [c, a] hqx (by omega) rfl
        rfl rfl
      rw [hstep]
      simp only [advanceIter]
      rw [stepState_rotate _ b [c, a] hqx ihl]
      simp [ihl, h3]
    · have hqx : (advanceIter fullEnv (some "g") n (qloopStart a b c)).queue
          "g" = c :: [a, b] := by rw [ihq]; simp [rot3, h3]
      have hstep := playQueue_cons fullEnv "g" _ c [a, b] hqx (by omega) rfl
        rfl rfl
      rw [hstep]
      simp only [advanceIter]
      rw [stepState_rotate _ c [a, b] hqx ihl]
      simp [ihl, h3]

end Disopy
